import Mathlib

/-!
Verification of the SAM-to-M4 conversion pipeline (`src/utils/SamToM4.cpp`).

The file embeds the driver's setup phase (reference-count check, short-name
to full-title map construction) and its per-record loop (skip/fatal rules,
CIGAR-to-candidate conversion, statistics computation, field reconciliation,
emission) as executable Lean definitions, and proves the specified properties
about them.

The low-level CIGAR-decoding library (`SAMAlignmentsToCandidates`) and the
statistics library (`ComputeAlignmentStats`) live outside the repository
snapshot; their behavior is modelled from the specification where noted.
-/

set_option autoImplicit false

namespace SamToM4

/-- A reference sequence as read from `reference.fasta` by `FASTAReader`:
only the `title` field is consulted by the driver. -/
structure FASTASequence where
  title : String
  deriving DecidableEq, Repr

/-- A reference descriptor from the SAM header (`SAMFullReferenceSequence`):
the driver reads its sequence name via `GetSequenceName()`. -/
structure SAMReference where
  sequenceName : String
  deriving DecidableEq, Repr

/-- One raw SAM record, with exactly the fields the driver consults:
`rName` (reference name), `cigar`, `flag` (bit 4 is the reverse-complement
flag), `as` (the aligner's score, tag AS), `mapQV` (mapping quality), and
`xq` (the original full query length saved by blasr, 0 when absent). -/
structure SAMAlignment where
  rName : String
  cigar : String
  flag : Nat
  qName : String
  asScore : Int
  mapQV : Nat
  xq : Nat
  deriving DecidableEq, Repr

/-- `IsReverseComplement(flag)`: bit 0x10 of the SAM flag. -/
def IsReverseComplement (flag : Nat) : Bool :=
  flag.testBit 4

/-- Strand marker of one side of an alignment; the spec asks for an explicit
two-value enumeration per side. -/
inductive Strand where
  | forward : Strand
  | reverse : Strand
  deriving DecidableEq, Repr

/-- Alignment statistics accumulated by the statistics engine. -/
structure AlignmentStats where
  nMatch : Nat
  nMismatch : Nat
  nIns : Nat
  nDel : Nat
  deriving DecidableEq, Repr

/-- The target-format record (`AlignmentCandidate<>`): the fields the driver
reads or writes. `qAlignedSeq`/`tAlignedSeq` are the materialized aligned
sequences (gaps written as `-`), `qLength` the query length bookkeeping,
`tName` the resolved reference name, and the statistics fields are filled by
the statistics engine. -/
structure AlignmentCandidate where
  qStrand : Strand
  tStrand : Strand
  qAlignedSeq : String
  tAlignedSeq : String
  qLength : Nat
  tName : String
  score : Int
  mapQV : Nat
  nMatch : Nat
  nMismatch : Nat
  nIns : Nat
  nDel : Nat
  pctSimilarity : ℚ
  deriving DecidableEq, Repr

/-- Modelled from the spec: the output of the external CIGAR-decoding step
for one alignment segment, before orientation normalization — the aligned
query and target character sequences (gaps materialized) and the
CIGAR-derived query length. The decoding algorithm itself is an excluded
collaborator (`SAMToAlignmentCandidateAdapter`, not under `src/`). -/
structure DecodedSegment where
  qAligned : String
  tAligned : String
  qLen : Nat
  deriving DecidableEq, Repr

/-- Watson-Crick complement of one base (non-ACGT characters unchanged). -/
def complementChar (c : Char) : Char :=
  if c = 'A' then 'T'
  else if c = 'T' then 'A'
  else if c = 'C' then 'G'
  else if c = 'G' then 'C'
  else c

/-- Reverse complement of a sequence. -/
def reverseComplement (s : String) : String :=
  String.mk ((s.data.reverse).map complementChar)

/-- Modelled from the spec: how `SAMAlignmentsToCandidates` (library code not
under `src/`, called with `keepRefAsForward = false`) turns one decoded
segment into a candidate. The reference strand is always normalized to
forward; if the record's reverse-complement flag is set, the query side is
recorded as reverse strand and its aligned sequence is the reverse
complement of what CIGAR decoding produced. Score, mapping quality and
statistics are left at their defaults, to be filled in later stages. -/
def segmentToCandidate (sam : SAMAlignment) (seg : DecodedSegment) : AlignmentCandidate :=
  { qStrand := if IsReverseComplement sam.flag then Strand.reverse else Strand.forward
    tStrand := Strand.forward
    qAlignedSeq :=
      if IsReverseComplement sam.flag then reverseComplement seg.qAligned else seg.qAligned
    tAlignedSeq := seg.tAligned
    qLength := seg.qLen
    tName := sam.rName
    score := 0
    mapQV := 0
    nMatch := 0
    nMismatch := 0
    nIns := 0
    nDel := 0
    pctSimilarity := 0 }

/-- Modelled from the spec: `SAMAlignmentsToCandidates` converts each decoded
segment of the record into one candidate, so the number of candidates equals
the number of alignment segments the record decodes into. -/
def SAMAlignmentsToCandidates (sam : SAMAlignment) (segs : List DecodedSegment) :
    List AlignmentCandidate :=
  segs.map (segmentToCandidate sam)

/-- Classify one aligned column and bump the corresponding counter:
a gap in the query is a deletion, a gap in the target an insertion,
otherwise the column is a match or mismatch by character equality. -/
def addColumn (q t : Char) (s : AlignmentStats) : AlignmentStats :=
  if q = '-' then { s with nDel := s.nDel + 1 }
  else if t = '-' then { s with nIns := s.nIns + 1 }
  else if q = t then { s with nMatch := s.nMatch + 1 }
  else { s with nMismatch := s.nMismatch + 1 }

/-- Walk the two equal-length aligned sequences position by position,
accumulating match/mismatch/insertion/deletion counts. -/
def countColumns : List Char → List Char → AlignmentStats
  | q :: qs, t :: ts => addColumn q t (countColumns qs ts)
  | _, _ => ⟨0, 0, 0, 0⟩

/-- Total number of classified columns. -/
def totalColumns (s : AlignmentStats) : Nat :=
  s.nMatch + s.nMismatch + s.nIns + s.nDel

/-- Percent identity: matches over all classified columns (gaps count
against identity), as a percentage. -/
def pctOf (s : AlignmentStats) : ℚ :=
  100 * (s.nMatch : ℚ) / (totalColumns s : ℚ)

/-- Modelled from the spec: the placeholder score the statistics engine
computes from its distance-matrix score function; its value is never trusted
downstream (it is unconditionally overwritten by the reconciler). -/
def statsScore (s : AlignmentStats) : Int :=
  (s.nMismatch : Int) + (s.nIns : Int) + (s.nDel : Int) - (s.nMatch : Int)

/-- Modelled from the spec: `ComputeAlignmentStats` (library code not under
`src/`) walks the candidate's aligned query/target pair, fills in the
match/mismatch/insertion/deletion counts and the percent identity, and sets
the (untrusted) recomputed score. It touches no other field. -/
def ComputeAlignmentStats (c : AlignmentCandidate) : AlignmentCandidate :=
  { c with
    nMatch := (countColumns c.qAlignedSeq.data c.tAlignedSeq.data).nMatch
    nMismatch := (countColumns c.qAlignedSeq.data c.tAlignedSeq.data).nMismatch
    nIns := (countColumns c.qAlignedSeq.data c.tAlignedSeq.data).nIns
    nDel := (countColumns c.qAlignedSeq.data c.tAlignedSeq.data).nDel
    pctSimilarity := pctOf (countColumns c.qAlignedSeq.data c.tAlignedSeq.data)
    score := statsScore (countColumns c.qAlignedSeq.data c.tAlignedSeq.data) }

/-- `std::map::find` over the insertion-ordered association list that models
`shortRefNameToFull`. -/
def mapFind (k : String) : List (String × String) → Option String
  | [] => none
  | (a, b) :: rest => if a = k then some b else mapFind k rest

/-- The loop at lines 111-121 of `SamToM4.cpp`: for each position, bind the
short name (from the SAM header) to the full title (from the FASTA file);
`none` models the `exit(EXIT_FAILURE)` taken when a short name is already
present in the map. -/
def buildShortRefNameToFull (acc : List (String × String)) :
    List (String × String) → Option (List (String × String))
  | [] => some acc
  | (short, full) :: rest =>
    if (mapFind short acc).isSome then none
    else buildShortRefNameToFull (acc ++ [(short, full)]) rest

/-- Outcome of the setup phase (everything before the record loop). -/
inductive SetupResult where
  | fatalAssert : SetupResult
  | fatalDuplicate : SetupResult
  | ready : List (String × String) → SetupResult
  deriving DecidableEq, Repr

/-- The setup phase of `main` (lines 109-122): assert that the FASTA file and
the SAM header declare the same number of references (a failed `assert`
aborts), then, unless `useShortRefName` is set, build the short-name to
full-title map, aborting on a duplicate short name. When `useShortRefName`
is set the map is never built. -/
def setup (references : List FASTASequence) (headerRefs : List SAMReference)
    (useShortRefName : Bool) : SetupResult :=
  if references.length ≠ headerRefs.length then SetupResult.fatalAssert
  else if useShortRefName then SetupResult.ready []
  else
    match buildShortRefNameToFull []
        ((headerRefs.zip references).map (fun p => (p.1.sequenceName, p.2.title))) with
    | none => SetupResult.fatalDuplicate
    | some m => SetupResult.ready m

/-- `cigar.find(\x27P\x27) != std::string::npos`: whether the CIGAR string
contains the padding operator `P`. -/
def containsPadding (cigar : String) : Bool :=
  cigar.data.contains 'P'

/-- The warning printed when a record's CIGAR contains the padding operator. -/
def paddingWarning : String :=
  "WARNING. Could not process sam record with \x27P\x27 in its cigar string."

/-- The warning printed when a record decodes into multiple segments. -/
def multiSegmentWarning : String :=
  "WARNING. Ignore an alignment which has multiple segments."

/-- The error message printed before `exit(EXIT_FAILURE)` when a reference
name cannot be resolved. -/
def unresolvedNameError (rName : String) : String :=
  "ERROR, Could not find " ++ rName ++ " in the reference repository."

/-- Lines 155-164 of `SamToM4.cpp`: unless `useShortRefName` is set, replace
the record's short reference name by the full title from the map; a missing
entry prints an error and exits with failure status. -/
def resolveName (useShortRefName : Bool) (m : List (String × String))
    (sam : SAMAlignment) : Except String SAMAlignment :=
  if useShortRefName then Except.ok sam
  else
    match mapFind sam.rName m with
    | none => Except.error (unresolvedNameError sam.rName)
    | some full => Except.ok { sam with rName := full }

/-- Lines 197-208 of `SamToM4.cpp`: run the statistics engine, then override
`score` with the aligner's score from the SAM file, override `mapQV` with the
record's mapping quality, and override `qLength` with `xq` only when `xq` is
non-zero. -/
def reconcile (sam : SAMAlignment) (c : AlignmentCandidate) : AlignmentCandidate :=
  let c1 := ComputeAlignmentStats c
  let c2 := { c1 with score := sam.asScore, mapQV := sam.mapQV }
  if sam.xq ≠ 0 then { c2 with qLength := sam.xq } else c2

/-- What processing one record leads to. `outOfBoundsAccess` marks the
unchecked `convertedAlignments[0]` hitting an empty vector (undefined
behavior in the C++). -/
inductive RecordResult where
  | skipped : RecordResult
  | fatalError : String → RecordResult
  | outOfBoundsAccess : RecordResult
  | emitted : AlignmentCandidate → RecordResult
  deriving DecidableEq, Repr

/-- The per-record outcome together with the warnings printed while the
record was handled. -/
structure StepOutcome where
  warnings : List String
  result : RecordResult
  deriving DecidableEq, Repr

/-- One iteration of the record loop (lines 150-215 of `SamToM4.cpp`).
`segs` stands for the segments the external CIGAR decoder produces for this
record. In order: skip (silently) if the reference name is `*`; resolve the
reference name (fatal if absent from the map and `useShortRefName` is
unset); warn and skip if the CIGAR contains `P`; convert; warn and skip if
there are multiple converted alignments; otherwise access element 0 of the
converted vector (out of bounds if it is empty), compute statistics,
reconcile fields, and emit. -/
def processRecord (useShortRefName : Bool) (m : List (String × String))
    (sam : SAMAlignment) (segs : List DecodedSegment) : StepOutcome :=
  if sam.rName = "*" then ⟨[], RecordResult.skipped⟩
  else
    match resolveName useShortRefName m sam with
    | Except.error msg => ⟨[msg], RecordResult.fatalError msg⟩
    | Except.ok sam2 =>
      if containsPadding sam2.cigar then ⟨[paddingWarning], RecordResult.skipped⟩
      else
        if (SAMAlignmentsToCandidates sam2 segs).length > 1 then
          ⟨[multiSegmentWarning], RecordResult.skipped⟩
        else
          match (SAMAlignmentsToCandidates sam2 segs).get? 0 with
          | none => ⟨[], RecordResult.outOfBoundsAccess⟩
          | some c0 => ⟨[], RecordResult.emitted (reconcile sam2 c0)⟩

/-- Outcome of a whole run. `setupFailure` means the process aborted during
setup, before any record was read. -/
inductive RunResult where
  | setupFailure : RunResult
  | finished : List AlignmentCandidate → List String → RunResult
  | recordFatal : String → RunResult
  | undefinedAccess : RunResult
  deriving DecidableEq, Repr

/-- The record loop over the whole input stream: records are handled in
order; a skip moves on to the next record, a fatal error or an out-of-bounds
access ends the run, an emitted candidate is appended to the output. -/
def processLoop (useShortRefName : Bool) (m : List (String × String)) :
    List (SAMAlignment × List DecodedSegment) → RunResult
  | [] => RunResult.finished [] []
  | (sam, segs) :: rest =>
    match (processRecord useShortRefName m sam segs).result with
    | RecordResult.fatalError msg => RunResult.recordFatal msg
    | RecordResult.outOfBoundsAccess => RunResult.undefinedAccess
    | RecordResult.skipped =>
      match processLoop useShortRefName m rest with
      | RunResult.finished es ws =>
        RunResult.finished es ((processRecord useShortRefName m sam segs).warnings ++ ws)
      | other => other
    | RecordResult.emitted c =>
      match processLoop useShortRefName m rest with
      | RunResult.finished es ws =>
        RunResult.finished (c :: es) ((processRecord useShortRefName m sam segs).warnings ++ ws)
      | other => other

/-- The whole program: setup, then the record loop. A setup failure aborts
before any record is read. -/
def runConversion (references : List FASTASequence) (headerRefs : List SAMReference)
    (useShortRefName : Bool) (records : List (SAMAlignment × List DecodedSegment)) :
    RunResult :=
  match setup references headerRefs useShortRefName with
  | SetupResult.fatalAssert => RunResult.setupFailure
  | SetupResult.fatalDuplicate => RunResult.setupFailure
  | SetupResult.ready m => processLoop useShortRefName m records

/-- Prepend warnings to a finished run (what handling one more skipped
record at the front of the stream does to the run's log). -/
def withWarnings (ws : List String) : RunResult → RunResult
  | RunResult.finished es ws2 => RunResult.finished es (ws ++ ws2)
  | r => r

/-! ### Helper lemmas -/

theorem resolveName_true (m : List (String × String)) (sam : SAMAlignment) :
    resolveName true m sam = Except.ok sam := rfl

theorem resolveName_ok_fields (u : Bool) (m : List (String × String))
    (sam sam2 : SAMAlignment) (h : resolveName u m sam = Except.ok sam2) :
    sam2.cigar = sam.cigar ∧ sam2.flag = sam.flag ∧ sam2.asScore = sam.asScore ∧
      sam2.mapQV = sam.mapQV ∧ sam2.xq = sam.xq := by
  unfold resolveName at h
  split at h
  · injection h with h2
    subst h2
    exact ⟨rfl, rfl, rfl, rfl, rfl⟩
  · cases hm : mapFind sam.rName m with
    | none => rw [hm] at h; cases h
    | some full =>
      rw [hm] at h
      injection h with h2
      subst h2
      exact ⟨rfl, rfl, rfl, rfl, rfl⟩

theorem reconcile_fields (sam : SAMAlignment) (c : AlignmentCandidate) :
    (reconcile sam c).qStrand = c.qStrand ∧
    (reconcile sam c).tStrand = c.tStrand ∧
    (reconcile sam c).tName = c.tName ∧
    (reconcile sam c).qAlignedSeq = c.qAlignedSeq ∧
    (reconcile sam c).tAlignedSeq = c.tAlignedSeq ∧
    (reconcile sam c).score = sam.asScore ∧
    (reconcile sam c).mapQV = sam.mapQV ∧
    (reconcile sam c).qLength = (if sam.xq ≠ 0 then sam.xq else c.qLength) ∧
    (reconcile sam c).pctSimilarity =
      pctOf (countColumns c.qAlignedSeq.data c.tAlignedSeq.data) := by
  simp only [reconcile]
  split <;> rename_i h <;> simp [h, ComputeAlignmentStats]

/-- Anatomy of an emitted record: the record passed name resolution, the
decoder produced at least one segment, and the emitted candidate is the
reconciliation of the statistics-annotated first converted candidate. -/
theorem processRecord_emitted_eq (u : Bool) (m : List (String × String))
    (sam : SAMAlignment) (segs : List DecodedSegment) (c : AlignmentCandidate)
    (h : (processRecord u m sam segs).result = RecordResult.emitted c) :
    ∃ sam2 seg, resolveName u m sam = Except.ok sam2 ∧ segs.get? 0 = some seg ∧
      c = reconcile sam2 (segmentToCandidate sam2 seg) := by
  unfold processRecord at h
  split at h
  · simp at h
  · cases hres : resolveName u m sam with
    | error msg => rw [hres] at h; simp at h
    | ok sam2 =>
      rw [hres] at h
      by_cases hp : containsPadding sam2.cigar = true
      · simp [hp] at h
      · simp only [hp, if_false, Bool.false_eq_true, ite_false] at h
        cases segs with
        | nil => simp [SAMAlignmentsToCandidates] at h
        | cons seg rest =>
          cases rest with
          | nil =>
            refine ⟨sam2, seg, rfl, rfl, ?_⟩
            simp [SAMAlignmentsToCandidates] at h
            exact h.symm
          | cons seg2 rest2 => simp [SAMAlignmentsToCandidates] at h

theorem mapFind_append_eq_none (k : String) (l1 l2 : List (String × String)) :
    mapFind k (l1 ++ l2) = none ↔ mapFind k l1 = none ∧ mapFind k l2 = none := by
  induction l1 with
  | nil => simp [mapFind]
  | cons p rest ih =>
    obtain ⟨a, b⟩ := p
    simp only [List.cons_append, mapFind]
    split <;> simp [ih]

/-- If the map-construction loop succeeds, the short names it was fed were
pairwise distinct and none of them was already bound in the accumulator. -/
theorem buildShortRefNameToFull_some (pairs : List (String × String)) :
    ∀ acc m, buildShortRefNameToFull acc pairs = some m →
      (pairs.map Prod.fst).Nodup ∧ ∀ k ∈ pairs.map Prod.fst, mapFind k acc = none := by
  induction pairs with
  | nil => intro acc m _; simp
  | cons p rest ih =>
    intro acc m h
    obtain ⟨k, v⟩ := p
    unfold buildShortRefNameToFull at h
    split at h
    · cases h
    · rename_i hnone
      obtain ⟨hnd, hall⟩ := ih (acc ++ [(k, v)]) m h
      have hk : mapFind k acc = none := by
        cases hacc : mapFind k acc with
        | none => rfl
        | some w => rw [hacc] at hnone; simp at hnone
      have hknotin : k ∉ rest.map Prod.fst := by
        intro hmem
        have := (mapFind_append_eq_none k acc [(k, v)]).mp (hall k hmem)
        have h2 := this.2
        simp [mapFind] at h2
      refine ⟨?_, ?_⟩
      · simp only [List.map_cons, List.nodup_cons]
        exact ⟨hknotin, hnd⟩
      · intro k2 hk2
        simp only [List.map_cons, List.mem_cons] at hk2
        cases hk2 with
        | inl he => rw [he]; exact hk
        | inr hmem => exact ((mapFind_append_eq_none k2 acc [(k, v)]).mp (hall k2 hmem)).1

/-- With equally long lists, the short names fed to the map construction are
exactly the sequence names of the header references, in order. -/
theorem bindings_keys (references : List FASTASequence) (headerRefs : List SAMReference)
    (h : references.length = headerRefs.length) :
    ((headerRefs.zip references).map (fun p => (p.1.sequenceName, p.2.title))).map Prod.fst
      = headerRefs.map SAMReference.sequenceName := by
  induction headerRefs generalizing references with
  | nil => simp
  | cons a rest ih =>
    cases references with
    | nil => simp at h
    | cons r rrest =>
      simp only [List.length_cons, Nat.succ.injEq] at h
      simp [List.zip_cons_cons, ih rrest h]

/-! ### Percent-identity lemmas -/

theorem nMatch_le_totalColumns (s : AlignmentStats) : s.nMatch ≤ totalColumns s := by
  unfold totalColumns
  omega

theorem pctOf_nonneg (s : AlignmentStats) : 0 ≤ pctOf s := by
  unfold pctOf
  positivity

theorem pctOf_le_100 (s : AlignmentStats) : pctOf s ≤ 100 := by
  unfold pctOf
  rcases Nat.eq_zero_or_pos (totalColumns s) with h0 | hpos
  · rw [h0]
    norm_num
  · have htot : (0 : ℚ) < (totalColumns s : ℚ) := by exact_mod_cast hpos
    rw [div_le_iff₀ htot]
    have hle : (s.nMatch : ℚ) ≤ (totalColumns s : ℚ) := by
      exact_mod_cast nMatch_le_totalColumns s
    nlinarith

/-- On a gap-free self-alignment every column is a match. -/
theorem countColumns_self (l : List Char) (hnd : ∀ ch ∈ l, ch ≠ '-') :
    countColumns l l = ⟨l.length, 0, 0, 0⟩ := by
  induction l with
  | nil => rfl
  | cons c cs ih =>
    have hc : c ≠ '-' := hnd c (List.mem_cons_self c cs)
    have ihh := ih (fun ch hm => hnd ch (List.mem_cons_of_mem c hm))
    simp [countColumns, ihh, addColumn, hc]

theorem pctOf_self (l : List Char) (hnd : ∀ ch ∈ l, ch ≠ '-') (hne : l ≠ []) :
    pctOf (countColumns l l) = 100 := by
  rw [countColumns_self l hnd]
  have hpos : 0 < l.length := List.length_pos.mpr hne
  have hq : (0 : ℚ) < (l.length : ℚ) := by exact_mod_cast hpos
  unfold pctOf totalColumns
  simp only [Nat.add_zero]
  field_simp

theorem segmentToCandidate_qStrand (sam : SAMAlignment) (seg : DecodedSegment) :
    (segmentToCandidate sam seg).qStrand =
      if IsReverseComplement sam.flag then Strand.reverse else Strand.forward := rfl

theorem segmentToCandidate_tStrand (sam : SAMAlignment) (seg : DecodedSegment) :
    (segmentToCandidate sam seg).tStrand = Strand.forward := rfl

theorem segmentToCandidate_tName (sam : SAMAlignment) (seg : DecodedSegment) :
    (segmentToCandidate sam seg).tName = sam.rName := rfl

theorem segmentToCandidate_qLength (sam : SAMAlignment) (seg : DecodedSegment) :
    (segmentToCandidate sam seg).qLength = seg.qLen := rfl

/-! ### Concrete example inputs, shared by the witnesses below -/

/-- A mapped forward-strand record with a non-zero original-length tag. -/
def samEx : SAMAlignment :=
  { rName := "chrA", cigar := "4M", flag := 0, qName := "query1",
    asScore := -20, mapQV := 254, xq := 7 }

/-- One decoded segment: a perfect gap-free four-column alignment. -/
def segEx : DecodedSegment := { qAligned := "ACGT", tAligned := "ACGT", qLen := 4 }

/-- The candidate `samEx`/`segEx` emits. -/
def cEx : AlignmentCandidate := reconcile samEx (segmentToCandidate samEx segEx)

/-- A record with the reverse-complement flag bit (0x10) set. -/
def samRC : SAMAlignment :=
  { rName := "chrA", cigar := "4M", flag := 16, qName := "query2",
    asScore := -12, mapQV := 100, xq := 0 }

/-- The candidate `samRC`/`segEx` emits. -/
def cRC : AlignmentCandidate := reconcile samRC (segmentToCandidate samRC segEx)

/-- An unmapped record: its reference name is the sentinel `*`. -/
def samStar : SAMAlignment :=
  { rName := "*", cigar := "10M", flag := 0, qName := "query0",
    asScore := -5, mapQV := 254, xq := 0 }

/-- A record whose CIGAR contains the unsupported padding operator. -/
def samPad : SAMAlignment :=
  { rName := "chrA", cigar := "10M2P5M", flag := 0, qName := "query3",
    asScore := -5, mapQV := 200, xq := 0 }

/-- A three-sequence reference catalog. -/
def refs3 : List FASTASequence := [⟨"full title A"⟩, ⟨"full title B"⟩, ⟨"full title C"⟩]

/-- A two-sequence reference catalog. -/
def refs2 : List FASTASequence := [⟨"full title A"⟩, ⟨"full title B"⟩]

/-- A one-sequence reference catalog. -/
def refs1 : List FASTASequence := [⟨"full title A"⟩]

/-- A header declaring two references with distinct short names. -/
def hdrs2 : List SAMReference := [⟨"chrA"⟩, ⟨"chrB"⟩]

/-- A header declaring one reference. -/
def hdrs1 : List SAMReference := [⟨"chrA"⟩]

/-- A header in which two references carry the same short name `chrA`. -/
def hdrsDup : List SAMReference := [⟨"chrA"⟩, ⟨"chrA"⟩]

/-- A one-entry short-name to full-title map. -/
def mapEx : List (String × String) := [("chrA", "full title A")]

/-! ### The claims -/

/-- Claim C1: for every emitted record, the target (reference) strand is
forward, and the query strand is reverse iff the source record's
reverse-complement flag bit is set. -/
theorem orientation_invariant (u : Bool) (m : List (String × String))
    (sam : SAMAlignment) (segs : List DecodedSegment) (c : AlignmentCandidate)
    (h : (processRecord u m sam segs).result = RecordResult.emitted c) :
    c.tStrand = Strand.forward ∧
      (c.qStrand = Strand.reverse ↔ IsReverseComplement sam.flag = true) := by
  obtain ⟨sam2, seg, hres, hseg, hc⟩ := processRecord_emitted_eq u m sam segs c h
  obtain ⟨-, hflag, -, -, -⟩ := resolveName_ok_fields u m sam sam2 hres
  obtain ⟨hq, ht, -⟩ := reconcile_fields sam2 (segmentToCandidate sam2 seg)
  subst hc
  refine ⟨by rw [ht, segmentToCandidate_tStrand], ?_⟩
  rw [hq, segmentToCandidate_qStrand, hflag]
  by_cases hrc : IsReverseComplement sam.flag = true
  · simp [hrc]
  · simp [hrc]

/-- Witness for C1 at a concrete reverse-complemented record. -/
theorem orientation_invariant_witness :
    cRC.tStrand = Strand.forward ∧
      (cRC.qStrand = Strand.reverse ↔ IsReverseComplement samRC.flag = true) :=
  orientation_invariant true [] samRC [segEx] cRC rfl

/-- Claim C2: if the number of reference sequences from the FASTA file
differs from the number of reference descriptors in the SAM header, the
run aborts fatally (the `assert` at line 109) before any record is read:
the whole run collapses to `setupFailure` whatever the record stream is. -/
theorem refCount_mismatch_aborts (refs : List FASTASequence) (hdrs : List SAMReference)
    (u : Bool) (records : List (SAMAlignment × List DecodedSegment))
    (h : refs.length ≠ hdrs.length) :
    setup refs hdrs u = SetupResult.fatalAssert ∧
      runConversion refs hdrs u records = RunResult.setupFailure := by
  have hs : setup refs hdrs u = SetupResult.fatalAssert := by simp [setup, h]
  exact ⟨hs, by simp [runConversion, hs]⟩

/-- Witness for C2: three catalog sequences against a two-reference header. -/
theorem refCount_mismatch_aborts_witness :
    setup refs3 hdrs2 false = SetupResult.fatalAssert ∧
      runConversion refs3 hdrs2 false [(samEx, [segEx])] = RunResult.setupFailure :=
  refCount_mismatch_aborts refs3 hdrs2 false [(samEx, [segEx])] (by decide)

/-- Claim C3: with full-name resolution enabled, a duplicated short name in
the header makes the map construction abort the run with failure status
before any record is processed. -/
theorem duplicate_shortName_aborts (refs : List FASTASequence) (hdrs : List SAMReference)
    (records : List (SAMAlignment × List DecodedSegment))
    (hlen : refs.length = hdrs.length)
    (hdup : ¬ (hdrs.map SAMReference.sequenceName).Nodup) :
    setup refs hdrs false = SetupResult.fatalDuplicate ∧
      runConversion refs hdrs false records = RunResult.setupFailure := by
  have hs : setup refs hdrs false = SetupResult.fatalDuplicate := by
    cases hb : buildShortRefNameToFull []
        ((hdrs.zip refs).map (fun p => (p.1.sequenceName, p.2.title))) with
    | none => simp [setup, hlen, hb]
    | some mm =>
      exfalso
      have hnd := (buildShortRefNameToFull_some _ _ _ hb).1
      rw [bindings_keys refs hdrs hlen] at hnd
      exact hdup hnd
  exact ⟨hs, by simp [runConversion, hs]⟩

/-- Witness for C3: two header references both named `chrA`. -/
theorem duplicate_shortName_aborts_witness :
    setup refs2 hdrsDup false = SetupResult.fatalDuplicate ∧
      runConversion refs2 hdrsDup false [(samEx, [segEx])] = RunResult.setupFailure :=
  duplicate_shortName_aborts refs2 hdrsDup [(samEx, [segEx])] (by decide) (by decide)

/-- Counterexample to C4 as stated: a record whose reference name is the
unmapped sentinel `*` is skipped, but no warning is logged for it (lines
151-153 are a bare `continue` with no message). -/
theorem unmapped_skip_silent_cex :
    (processRecord true [] samStar []).result = RecordResult.skipped ∧
      (processRecord true [] samStar []).warnings = [] :=
  ⟨rfl, rfl⟩

/-- Claim C4 (amended): a record with reference name `*` is skipped silently
(no warning); a record whose CIGAR contains the padding operator is skipped
with a warning; a record that decodes into more than one alignment segment
is skipped with a warning; any skipped record produces no output line and
processing continues with the next record. -/
theorem skip_conditions_amended (u : Bool) (m : List (String × String))
    (sam sam2 : SAMAlignment) (segs : List DecodedSegment)
    (rest : List (SAMAlignment × List DecodedSegment)) :
    (sam.rName = "*" →
        processRecord u m sam segs = ⟨[], RecordResult.skipped⟩)
    ∧ (sam.rName ≠ "*" → resolveName u m sam = Except.ok sam2 →
        containsPadding sam2.cigar = true →
        processRecord u m sam segs = ⟨[paddingWarning], RecordResult.skipped⟩)
    ∧ (sam.rName ≠ "*" → resolveName u m sam = Except.ok sam2 →
        containsPadding sam2.cigar = false → segs.length > 1 →
        processRecord u m sam segs = ⟨[multiSegmentWarning], RecordResult.skipped⟩)
    ∧ ((processRecord u m sam segs).result = RecordResult.skipped →
        processLoop u m ((sam, segs) :: rest)
          = withWarnings (processRecord u m sam segs).warnings (processLoop u m rest)) := by
  refine ⟨?_, ?_, ?_, ?_⟩
  · intro h1
    simp [processRecord, h1]
  · intro h1 h2 h3
    simp [processRecord, h1, h2, h3]
  · intro h1 h2 h3 h4
    simp [processRecord, h1, h2, h3, SAMAlignmentsToCandidates, h4]
  · intro h
    simp only [processLoop, h]
    cases processLoop u m rest <;> simp [withWarnings]

/-- Witness for C4 (amended) at a concrete padded record. -/
theorem skip_conditions_amended_witness :
    processRecord true [] samPad [segEx] = ⟨[paddingWarning], RecordResult.skipped⟩ :=
  (skip_conditions_amended true [] samPad samPad [segEx] []).2.1 (by decide) rfl (by decide)

/-- Claim C5: the emitted score always equals the source record's own
alignment-score field (the statistics engine's recomputed score is
discarded), and the emitted mapping quality always equals the source
record's mapping-quality field. -/
theorem score_mapQV_passthrough (u : Bool) (m : List (String × String))
    (sam : SAMAlignment) (segs : List DecodedSegment) (c : AlignmentCandidate)
    (h : (processRecord u m sam segs).result = RecordResult.emitted c) :
    c.score = sam.asScore ∧ c.mapQV = sam.mapQV := by
  obtain ⟨sam2, seg, hres, hseg, hc⟩ := processRecord_emitted_eq u m sam segs c h
  obtain ⟨-, -, hscore, hmap, -⟩ := resolveName_ok_fields u m sam sam2 hres
  obtain ⟨-, -, -, -, -, hsc, hmq, -, -⟩ := reconcile_fields sam2 (segmentToCandidate sam2 seg)
  subst hc
  exact ⟨hsc.trans hscore, hmq.trans hmap⟩

/-- Witness for C5 at a concrete emitted record. -/
theorem score_mapQV_passthrough_witness :
    cEx.score = samEx.asScore ∧ cEx.mapQV = samEx.mapQV :=
  score_mapQV_passthrough true [] samEx [segEx] cEx rfl

/-- Claim C6: the emitted `qLength` equals the source record's
original-full-length field `xq` when that field is non-zero, and otherwise
equals the CIGAR-derived query length of the decoded segment, which the
reconciliation step leaves untouched. -/
theorem qLength_override (u : Bool) (m : List (String × String))
    (sam : SAMAlignment) (segs : List DecodedSegment) (seg : DecodedSegment)
    (c : AlignmentCandidate) (hseg : segs.get? 0 = some seg)
    (h : (processRecord u m sam segs).result = RecordResult.emitted c) :
    (sam.xq ≠ 0 → c.qLength = sam.xq) ∧ (sam.xq = 0 → c.qLength = seg.qLen) := by
  obtain ⟨sam2, seg2, hres, hseg2, hc⟩ := processRecord_emitted_eq u m sam segs c h
  have hseq : seg2 = seg := by
    rw [hseg] at hseg2
    exact (Option.some.inj hseg2).symm
  subst hseq
  obtain ⟨-, -, -, -, hxq⟩ := resolveName_ok_fields u m sam sam2 hres
  obtain ⟨-, -, -, -, -, -, -, hql, -⟩ := reconcile_fields sam2 (segmentToCandidate sam2 seg2)
  subst hc
  rw [hql, hxq, segmentToCandidate_qLength]
  constructor
  · intro hne
    rw [if_pos hne]
  · intro hz
    rw [if_neg (by simp [hz])]

/-- Witness for C6 at a concrete record with a non-zero `xq`. -/
theorem qLength_override_witness : cEx.qLength = samEx.xq :=
  (qLength_override true [] samEx [segEx] segEx cEx rfl rfl).1 (by decide)

/-- Claim C7: with full-name resolution enabled, a record (not skipped as
unmapped) whose reference name is absent from the map makes the run print an
error and exit with failure status — the record is not skipped, and the rest
of the stream is not processed. -/
theorem unresolvedName_fatal (m : List (String × String)) (sam : SAMAlignment)
    (segs : List DecodedSegment) (rest : List (SAMAlignment × List DecodedSegment))
    (h1 : sam.rName ≠ "*") (h2 : mapFind sam.rName m = none) :
    processRecord false m sam segs
      = ⟨[unresolvedNameError sam.rName],
          RecordResult.fatalError (unresolvedNameError sam.rName)⟩
    ∧ processLoop false m ((sam, segs) :: rest)
      = RunResult.recordFatal (unresolvedNameError sam.rName) := by
  have hp : processRecord false m sam segs
      = ⟨[unresolvedNameError sam.rName],
          RecordResult.fatalError (unresolvedNameError sam.rName)⟩ := by
    simp [processRecord, h1, resolveName, h2]
  exact ⟨hp, by simp [processLoop, hp]⟩

/-- Witness for C7: a record naming `chrZ` against a map holding only
`chrA`. -/
theorem unresolvedName_fatal_witness :
    processRecord false mapEx { samEx with rName := "chrZ" } [segEx]
      = ⟨[unresolvedNameError "chrZ"], RecordResult.fatalError (unresolvedNameError "chrZ")⟩ :=
  (unresolvedName_fatal mapEx { samEx with rName := "chrZ" } [segEx] []
    (by decide) (by decide)).1

/-- Claim C8: when `useShortRefName` is selected, the short-name map is
never built (setup yields the empty map), the per-record name lookup is
short-circuited (resolution returns the record unchanged), no
unresolved-name fatal error can occur, and the header short name passes
through verbatim to the emitted record's reference-name field. -/
theorem useShortRefName_shortCircuit (refs : List FASTASequence) (hdrs : List SAMReference)
    (m : List (String × String)) (sam : SAMAlignment) (segs : List DecodedSegment)
    (c : AlignmentCandidate) (hlen : refs.length = hdrs.length) :
    setup refs hdrs true = SetupResult.ready []
    ∧ resolveName true m sam = Except.ok sam
    ∧ (∀ msg, (processRecord true m sam segs).result ≠ RecordResult.fatalError msg)
    ∧ ((processRecord true m sam segs).result = RecordResult.emitted c →
        c.tName = sam.rName) := by
  refine ⟨by simp [setup, hlen], rfl, ?_, ?_⟩
  · intro msg hcontra
    unfold processRecord at hcontra
    split at hcontra
    · simp at hcontra
    · rw [resolveName_true] at hcontra
      by_cases hp : containsPadding sam.cigar = true
      · simp [hp] at hcontra
      · simp only [hp, Bool.false_eq_true, ite_false] at hcontra
        split at hcontra
        · simp at hcontra
        · cases hg : (SAMAlignmentsToCandidates sam segs).get? 0 with
          | none => rw [hg] at hcontra; simp at hcontra
          | some c0 => rw [hg] at hcontra; simp at hcontra
  · intro h
    obtain ⟨sam2, seg, hres, hseg, hc⟩ := processRecord_emitted_eq true m sam segs c h
    rw [resolveName_true] at hres
    have hsam : sam2 = sam := (Except.ok.inj hres).symm
    subst hsam
    obtain ⟨-, -, htn, -⟩ := reconcile_fields sam2 (segmentToCandidate sam2 seg)
    subst hc
    rw [htn, segmentToCandidate_tName]

/-- Witness for C8 at a concrete record and a non-trivial map that is
demonstrably ignored. -/
theorem useShortRefName_shortCircuit_witness :
    setup refs1 hdrs1 true = SetupResult.ready []
    ∧ resolveName true mapEx samEx = Except.ok samEx
    ∧ (processRecord true mapEx samEx [segEx]).result
        ≠ RecordResult.fatalError (unresolvedNameError samEx.rName)
    ∧ cEx.tName = samEx.rName := by
  obtain ⟨h1, h2, h3, h4⟩ :=
    useShortRefName_shortCircuit refs1 hdrs1 mapEx samEx [segEx] cEx (by decide)
  exact ⟨h1, h2, h3 _, h4 rfl⟩

/-- Claim C9: for every emitted record the percent identity lies in
`[0, 100]`, and it equals `100` when the aligned query and aligned target
are character-for-character equal with no gap characters (the degenerate
zero-column alignment is excluded: its identity is `0/0`). -/
theorem pctSimilarity_bounds (u : Bool) (m : List (String × String))
    (sam : SAMAlignment) (segs : List DecodedSegment) (c : AlignmentCandidate)
    (h : (processRecord u m sam segs).result = RecordResult.emitted c) :
    (0 ≤ c.pctSimilarity ∧ c.pctSimilarity ≤ 100)
    ∧ (c.qAlignedSeq = c.tAlignedSeq → (∀ ch ∈ c.qAlignedSeq.data, ch ≠ '-') →
        c.qAlignedSeq.data ≠ [] → c.pctSimilarity = 100) := by
  obtain ⟨sam2, seg, hres, hseg, hc⟩ := processRecord_emitted_eq u m sam segs c h
  have hpct : c.pctSimilarity
      = pctOf (countColumns c.qAlignedSeq.data c.tAlignedSeq.data) := by
    obtain ⟨-, -, -, hqa, hta, -, -, -, hp⟩ :=
      reconcile_fields sam2 (segmentToCandidate sam2 seg)
    subst hc
    rw [hp, hqa, hta]
  refine ⟨⟨by rw [hpct]; exact pctOf_nonneg _, by rw [hpct]; exact pctOf_le_100 _⟩, ?_⟩
  intro heq hnd hne
  have hdata : c.tAlignedSeq.data = c.qAlignedSeq.data := by rw [heq]
  rw [hpct, hdata]
  exact pctOf_self c.qAlignedSeq.data hnd hne

/-- Witness for C9 at a concrete gap-free perfect alignment. -/
theorem pctSimilarity_bounds_witness :
    (0 ≤ cEx.pctSimilarity ∧ cEx.pctSimilarity ≤ 100) ∧ cEx.pctSimilarity = 100 := by
  obtain ⟨hb, h100⟩ := pctSimilarity_bounds true [] samEx [segEx] cEx rfl
  exact ⟨hb, h100 rfl (by decide) (by decide)⟩

/-- Claim C10: the loop body reads `convertedAlignments[0]` guarded only by
the `size() > 1` check, so the empty case is not filtered: for any admitted
record whose conversion yields zero candidates, the code performs an
out-of-bounds element access (index 0 on an empty vector). -/
theorem emptyConversion_outOfBounds (u : Bool) (m : List (String × String))
    (sam sam2 : SAMAlignment)
    (h1 : sam.rName ≠ "*") (h2 : resolveName u m sam = Except.ok sam2)
    (h3 : containsPadding sam2.cigar = false) :
    ¬ ((SAMAlignmentsToCandidates sam2 ([] : List DecodedSegment)).length > 1)
    ∧ (SAMAlignmentsToCandidates sam2 ([] : List DecodedSegment)).get? 0 = none
    ∧ (processRecord u m sam []).result = RecordResult.outOfBoundsAccess := by
  refine ⟨by simp [SAMAlignmentsToCandidates], by simp [SAMAlignmentsToCandidates], ?_⟩
  simp [processRecord, h1, h2, h3, SAMAlignmentsToCandidates]

/-- Witness for C10: a mapped, padding-free record whose decoder output is
empty reaches the out-of-bounds access. -/
theorem emptyConversion_outOfBounds_witness :
    (processRecord true [] samEx []).result = RecordResult.outOfBoundsAccess :=
  (emptyConversion_outOfBounds true [] samEx samEx (by decide) rfl (by decide)).2.2

end SamToM4
